import Mathlib

/-!
# Verification of the codex-bridge MCP gateway against its specification

This file is a shallow embedding, in Lean 4, of the parts of
`codex_bridge_mcp.py` that the specification's claims are about:

* the JSON value model and Python-style dictionary operations,
* the `SessionInfo` record and the `SessionStore` operations
  (`add`, `update`, `delete`, `increment_history`, `get`, `list`),
  together with the persisted-line loader `_load`,
* the policy layer (`_resolve_model`, timeout derivation, default
  injection in `_handle_codex_tool`),
* the downstream framing layer (`_try_parse_json` and the reply
  classification of the entry loop), and
* the `initialize` branch of `CodexBridgeServer.handle`.

Modelling conventions:

* Python `None` is `JValue.null`; Python dictionaries are association
  lists (`Dict`) with first-match lookup; `dict.get` of a missing key
  yields `JValue.null`.
* JSON numbers are modelled as integers: no claim depends on a
  fractional value.  Python's `float(x)` is modelled exactly (the
  claims are stated in whole milliseconds / whole counts, far from any
  double rounding boundary).
* Python `bool` is a subclass of `int`, so `isinstance(x, int)`
  accepts booleans; `asPyInt` mirrors this.
* `json.loads` is modelled by its outcome: a physical input line is a
  `RawLine` (stripped-blank, undecodable, or a decoded `JValue`).
* Wall-clock reads (`time.time()`) are passed in as an explicit `now`
  parameter.
-/

namespace CodexBridge

/-- JSON values (numbers as integers, see the header note). -/
inductive JValue where
  | null
  | bool (b : Bool)
  | num (n : Int)
  | str (s : String)
  | arr (xs : List JValue)
  | obj (fields : List (String × JValue))

/-- A Python dict holding JSON values, as an association list. -/
abbrev Dict := List (String × JValue)

/-- First-match association lookup (Python `d[k]` / `d.get(k)` presence). -/
def dlookup (d : Dict) (k : String) : Option JValue :=
  match d with
  | [] => none
  | (k', v) :: rest => if k' = k then some v else dlookup rest k

/-- Python `d.get(k)`: `None` (= `.null`) when the key is absent. -/
def dget (d : Dict) (k : String) : JValue :=
  (dlookup d k).getD .null

/-- Python `d[k] = v`: replace in place, or append a fresh key. -/
def dset (d : Dict) (k : String) (v : JValue) : Dict :=
  match d with
  | [] => [(k, v)]
  | (k', v') :: rest => if k' = k then (k', v) :: rest else (k', v') :: dset rest k v

/-- The dictionary left behind by Python `d.pop(k, None)`. -/
def dpopRest (d : Dict) (k : String) : Dict :=
  d.filter (fun p => decide (p.1 ≠ k))

/-- Python `"k" in d`. -/
def dhas (d : Dict) (k : String) : Bool :=
  (dlookup d k).isSome

/-- Python truthiness of a JSON value. -/
def JValue.truthy : JValue → Bool
  | .null => false
  | .bool b => b
  | .num n => decide (n ≠ 0)
  | .str s => decide (s ≠ "")
  | .arr xs => !xs.isEmpty
  | .obj fs => !fs.isEmpty

/-- Python `isinstance(x, int)` view (booleans are ints in Python). -/
def asPyInt : JValue → Option Int
  | .num n => some n
  | .bool b => some (if b then 1 else 0)
  | _ => none

/-- Python `x if isinstance(x, str) else None`. -/
def asPyStr : JValue → Option String
  | .str s => some s
  | _ => none

/-- Python `x if isinstance(x, dict) else None`. -/
def asPyDict : JValue → Option Dict
  | .obj fs => some fs
  | _ => none

/-- `Optional[str]` view of a JSON value (used at call sites whose
callee is annotated `Optional[str]`; non-strings behave like `None`
there, see `_resolve_model`). -/
def asOptStrPy : JValue → Option String
  | .str s => some s
  | _ => none

/-! ## Constants from the top of `codex_bridge_mcp.py` -/

def MCP_PROTOCOL_VERSION : String := "2025-11-25"

def BRIDGE_VERSION : String := "0.9.1"

def CHATGPT_AUTH_MODELS : List String := ["gpt-5.2", "gpt-5.2-codex"]

def API_AUTH_MODELS : List String :=
  ["gpt-5.2", "gpt-5.2-codex", "gpt-5.2-mini", "gpt-5.2-nano", "o3", "o4-mini"]

def TASK_TYPES : List String := ["coding", "discussion", "research"]

def DEFAULT_TASK_TYPE : String := "coding"

def TASK_MODEL_DEFAULTS : List (String × String) :=
  [("coding", "gpt-5.2-codex"), ("discussion", "gpt-5.2"), ("research", "gpt-5.2")]

def DEFAULT_REASONING_EFFORT : String := "xhigh"

def DEFAULT_SANDBOX : String := "danger-full-access"

def JSONRPC_PARSE_ERROR : Int := -32700

def JSONRPC_INVALID_REQUEST : Int := -32600

def JSONRPC_METHOD_NOT_FOUND : Int := -32601

/-- String-valued association lookup (for `TASK_MODEL_DEFAULTS`). -/
def lookupStr (l : List (String × String)) (k : String) : Option String :=
  match l with
  | [] => none
  | (k', v) :: rest => if k' = k then some v else lookupStr rest k

/-! ## `_resolve_model` (policy layer) -/

/-- `_resolve_model(requested_model, task_type, available_models)`.
The Python parameters are annotated `Optional[str]`; the falsy test
`not requested_model` is true for `None` and for `""`.  The `.getD`
fallback on `TASK_MODEL_DEFAULTS` is unreachable because
`effective_task` is always a member of `TASK_TYPES`. -/
def _resolve_model (requested_model : Option String) (task_type : Option String)
    (available_models : List String) : String × Option String :=
  let effective_task :=
    match task_type with
    | some t => if t ∈ TASK_TYPES then t else DEFAULT_TASK_TYPE
    | none => DEFAULT_TASK_TYPE
  let default_model := (lookupStr TASK_MODEL_DEFAULTS effective_task).getD DEFAULT_TASK_TYPE
  match requested_model with
  | none => (default_model, none)
  | some r =>
    if r = "" then (default_model, none)
    else if r ∈ available_models then (r, none)
    else (default_model,
      some ("Model '" ++ r ++ "' not available. Using '" ++ default_model ++ "' instead."))

/-! ## Overall upstream-call timeout derivation

The Python code computes a timeout in float seconds:
`timeout_s = 600.0; if isinstance(timeout_ms, int) and timeout_ms > 0:
timeout_s = max(1.0, min(60.0*60.0, timeout_ms / 1000.0))`.
We state it in exact milliseconds: multiplying through by 1000 turns
`max(1.0, min(3600.0, ms/1000.0))` into `max 1000 (min 3600000 ms)`
(exact, since `/1000.0` is monotone and the boundary values 1.0 and
3600.0 are represented exactly). -/

/-- Milliseconds of the overall timeout in `_handle_codex_tool`;
the argument is the popped `timeoutMs` value (`.null` when absent). -/
def codexOverallTimeoutMs (timeoutMs : JValue) : Int :=
  match asPyInt timeoutMs with
  | some n => if 0 < n then max 1000 (min 3600000 n) else 600000
  | none => 600000

/-- Milliseconds of the overall timeout in `_handle_codex_reply_tool`
(the source duplicates the same lines). -/
def codexReplyOverallTimeoutMs (timeoutMs : JValue) : Int :=
  match asPyInt timeoutMs with
  | some n => if 0 < n then max 1000 (min 3600000 n) else 600000
  | none => 600000

/-! ## `SessionInfo` -/

/-- The frozen dataclass `SessionInfo` (field names as in the source;
`captured_at` is an integer per the numeric modelling note). -/
structure SessionInfo where
  conversation_id : String
  captured_at : Int
  model : Option String := none
  model_provider_id : Option String := none
  approval_policy : Option String := none
  sandbox_policy : Option Dict := none
  cwd : Option String := none
  reasoning_effort : Option String := none
  rollout_path : Option String := none
  history_log_id : Option Int := none
  history_entry_count : Option Int := none
  name : Option String := none

/-- `SessionInfo.with_name`. -/
def SessionInfo.with_name (i : SessionInfo) (name : String) : SessionInfo :=
  { i with name := some name }

/-- `SessionInfo.with_incremented_history`.  Python computes
`current = self.history_entry_count or 0`; since the only falsy
integer is `0`, this equals `Option.getD 0`. -/
def SessionInfo.with_incremented_history (i : SessionInfo) : SessionInfo :=
  { i with history_entry_count := some (i.history_entry_count.getD 0 + 1) }

/-- The camelCase downstream projection `_session_info_payload`. -/
structure SessionPayload where
  conversationId : String
  name : Option String
  capturedAt : Int
  model : Option String
  modelProviderId : Option String
  approvalPolicy : Option String
  sandboxPolicy : Option Dict
  cwd : Option String
  reasoningEffort : Option String
  rolloutPath : Option String
  historyLogId : Option Int
  historyEntryCount : Option Int

def _session_info_payload (i : SessionInfo) : SessionPayload :=
  { conversationId := i.conversation_id
    name := i.name
    capturedAt := i.captured_at
    model := i.model
    modelProviderId := i.model_provider_id
    approvalPolicy := i.approval_policy
    sandboxPolicy := i.sandbox_policy
    cwd := i.cwd
    reasoningEffort := i.reasoning_effort
    rolloutPath := i.rollout_path
    historyLogId := i.history_log_id
    historyEntryCount := i.history_entry_count }

/-! ## `SessionStore`

The in-memory state is `_by_id` (a dict) plus `_order` (the insertion
list).  Disk writes are logged-and-swallowed in the source (`OSError:
pass`), and the in-memory state is authoritative for every operation,
so the store operations are modelled on the memory state; the on-disk
log only matters through `_load`, modelled below on raw lines. -/

def slookup (l : List (String × SessionInfo)) (k : String) : Option SessionInfo :=
  match l with
  | [] => none
  | (k', v) :: rest => if k' = k then some v else slookup rest k

def sset (l : List (String × SessionInfo)) (k : String) (v : SessionInfo) :
    List (String × SessionInfo) :=
  match l with
  | [] => [(k, v)]
  | (k', v') :: rest => if k' = k then (k', v) :: rest else (k', v') :: sset rest k v

structure StoreState where
  by_id : List (String × SessionInfo)
  order : List String

def emptyStore : StoreState := ⟨[], []⟩

/-- `SessionStore.get`. -/
def StoreState.get (st : StoreState) (cid : String) : Option SessionInfo :=
  slookup st.by_id cid

/-- `SessionStore.add`: first write wins; on a fresh key the record is
stored and the id appended to the insertion order. -/
def StoreState.add (st : StoreState) (info : SessionInfo) : StoreState :=
  if (slookup st.by_id info.conversation_id).isSome then st
  else { by_id := sset st.by_id info.conversation_id info
         order := st.order ++ [info.conversation_id] }

/-- `SessionStore.update`: sets the name when the key exists. -/
def StoreState.update (st : StoreState) (cid : String) (name : Option String) :
    Option SessionInfo × StoreState :=
  match slookup st.by_id cid with
  | none => (none, st)
  | some existing =>
    match name with
    | some n =>
      let updated := existing.with_name n
      (some updated, { st with by_id := sset st.by_id cid updated })
    | none => (some existing, st)

/-- `SessionStore.delete`. -/
def StoreState.delete (st : StoreState) (cid : String) : Bool × StoreState :=
  if (slookup st.by_id cid).isSome then
    (true, { by_id := st.by_id.filter (fun p => decide (p.1 ≠ cid))
             order := st.order.filter (fun c => decide (c ≠ cid)) })
  else (false, st)

/-- `SessionStore.increment_history`. -/
def StoreState.increment_history (st : StoreState) (cid : String) :
    Option SessionInfo × StoreState :=
  match slookup st.by_id cid with
  | none => (none, st)
  | some existing =>
    let updated := existing.with_incremented_history
    (some updated, { st with by_id := sset st.by_id cid updated })

/-- `SessionStore.count`. -/
def StoreState.count (st : StoreState) : Nat := st.by_id.length

/-! ## Decimal rendering and parsing (Python `str(int)` / `int(str)`) -/

/-- The decimal digit character for `d < 10` (`9` for anything larger,
never reached). -/
def digitChar (d : Nat) : Char :=
  if d = 0 then '0' else if d = 1 then '1' else if d = 2 then '2'
  else if d = 3 then '3' else if d = 4 then '4' else if d = 5 then '5'
  else if d = 6 then '6' else if d = 7 then '7' else if d = 8 then '8' else '9'

def charDigit? (c : Char) : Option Nat :=
  if c = '0' then some 0 else if c = '1' then some 1 else if c = '2' then some 2
  else if c = '3' then some 3 else if c = '4' then some 4 else if c = '5' then some 5
  else if c = '6' then some 6 else if c = '7' then some 7 else if c = '8' then some 8
  else if c = '9' then some 9 else none

/-- Python `str(n)` for a non-negative integer. -/
def pyStrNat (n : Nat) : String :=
  ⟨if n = 0 then ['0'] else (Nat.digits 10 n).reverse.map digitChar⟩

def parseDigitsAux : List Char → Nat → Option Nat
  | [], acc => some acc
  | c :: cs, acc =>
    match charDigit? c with
    | some d => parseDigitsAux cs (acc * 10 + d)
    | none => none

/-- A non-empty all-digit run, as a number. -/
def parseDigits (cs : List Char) : Option Nat :=
  match cs with
  | [] => none
  | _ => parseDigitsAux cs 0

def isPySpace (c : Char) : Bool :=
  c == ' ' || c == '\t' || c == '\n' || c == '\r'

/-- Strip leading and trailing whitespace (Python `str.strip()` over
the whitespace characters the claims exercise). -/
def trimChars (cs : List Char) : List Char :=
  (((cs.dropWhile isPySpace).reverse.dropWhile isPySpace)).reverse

/-- Python `int(s)` as used by `SessionStore.list` on the cursor:
`None` models a raised `ValueError`.  (Underscored literals are not
modelled; no claim exercises them.) -/
def pyInt? (s : String) : Option Int :=
  match trimChars s.data with
  | [] => none
  | c :: rest =>
    if c = '-' then (parseDigits rest).map (fun n => -(n : Int))
    else if c = '+' then (parseDigits rest).map (fun n => (n : Int))
    else (parseDigits (c :: rest)).map (fun n => (n : Int))

/-! ## `SessionStore.list` and pagination -/

structure ListResult where
  data : List SessionPayload
  nextCursor : Option String

/-- The integer start offset `list` derives from the cursor:
`int(cursor)` with `ValueError ⇒ 0`, absent `⇒ 0`, then `max(0, ·)`. -/
def cursorStart (cursor : Option String) : Nat :=
  (match cursor with
   | none => (0 : Int)
   | some c => (pyInt? c).getD 0).toNat

/-- `SessionStore.list(limit, cursor)`. -/
def StoreState.listOp (st : StoreState) (limit : Int) (cursor : Option String) :
    ListResult :=
  let start := cursorStart cursor
  let ids := st.order.reverse
  let stop := min ids.length (start + (max 1 limit).toNat)
  let items := ((ids.drop start).take (stop - start)).filterMap
    (fun cid => (slookup st.by_id cid).map _session_info_payload)
  { data := items
    nextCursor := if stop < ids.length then some (pyStrNat stop) else none }

/-- Drive `list` from an absent cursor, feeding each returned
`nextCursor` back in until it is null (fuel-bounded). -/
def paginateAux (st : StoreState) (limit : Int) : Nat → Option String → List SessionPayload
  | 0, _ => []
  | fuel + 1, cursor =>
    let r := st.listOp limit cursor
    r.data ++
      (match r.nextCursor with
       | none => []
       | some c => paginateAux st limit fuel (some c))

def paginate (st : StoreState) (limit : Int) (fuel : Nat) : List SessionPayload :=
  paginateAux st limit fuel none

/-! ## Loading the persisted `sessions.jsonl` (`SessionStore._load`) -/

/-- One physical input line, after Python's `line.strip()` and
`json.loads`: stripped-empty, undecodable, or a decoded value. -/
inductive RawLine where
  | blank
  | invalid
  | json (v : JValue)

/-- Python `float(s)` on a string, up to the integer part (fractional
digits are accepted and discarded, per the numeric modelling note).
Grammar modelled: optional sign, digits, optional `.` and digits, at
least one digit overall.  (Exponents, `inf`/`nan` and underscores are
not modelled; no claim exercises them.) -/
def pyFloatStr? (s : String) : Option Int :=
  let cs := trimChars s.data
  let signed : Bool × List Char :=
    match cs with
    | '-' :: rest => (true, rest)
    | '+' :: rest => (false, rest)
    | rest => (false, rest)
  let body := signed.2
  let intPart := body.takeWhile (fun c => (charDigit? c).isSome)
  let rest := body.dropWhile (fun c => (charDigit? c).isSome)
  let mag : Option Nat :=
    match rest with
    | [] => if intPart.isEmpty then none else parseDigitsAux intPart 0
    | '.' :: frac =>
      if frac.all (fun c => (charDigit? c).isSome) && !(intPart.isEmpty && frac.isEmpty) then
        parseDigitsAux intPart 0
      else none
    | _ => none
  mag.map (fun n => if signed.1 then -(n : Int) else (n : Int))

/-- Python `float(x)` on a JSON value; `none` models a raised
`TypeError`/`ValueError`. -/
def pyFloat? : JValue → Option Int
  | .num n => some n
  | .bool b => some (if b then 1 else 0)
  | .str s => pyFloatStr? s
  | _ => none

/-- `float(obj.get("captured_at") or time.time())`: a falsy value
falls back to the current time `now`; a truthy value must coerce. -/
def capturedAtCoerce (v : JValue) (now : Int) : Option Int :=
  if v.truthy then pyFloat? v else some now

/-- The record `_load` builds from one decoded object line (after the
`conversation_id` check); `none` models the swallowed exception from
`float(...)`. -/
def parseSessionFields (fields : Dict) (cid : String) (now : Int) : Option SessionInfo :=
  match capturedAtCoerce (dget fields "captured_at") now with
  | none => none
  | some cap =>
    some
      { conversation_id := cid
        captured_at := cap
        model := asPyStr (dget fields "model")
        model_provider_id := asPyStr (dget fields "model_provider_id")
        approval_policy := asPyStr (dget fields "approval_policy")
        sandbox_policy := asPyDict (dget fields "sandbox_policy")
        cwd := asPyStr (dget fields "cwd")
        reasoning_effort := asPyStr (dget fields "reasoning_effort")
        rollout_path := asPyStr (dget fields "rollout_path")
        history_log_id := asPyInt (dget fields "history_log_id")
        history_entry_count := asPyInt (dget fields "history_entry_count")
        name := asPyStr (dget fields "name") }

/-- One iteration of the `_load` line loop. -/
def loadLine (st : StoreState) (l : RawLine) (now : Int) : StoreState :=
  match l with
  | .blank => st
  | .invalid => st
  | .json v =>
    match v with
    | .obj fields =>
      match dget fields "conversation_id" with
      | .str cid =>
        if cid = "" then st
        else
          match parseSessionFields fields cid now with
          | none => st
          | some info =>
            { by_id := sset st.by_id cid info
              order := if (slookup st.by_id cid).isSome then st.order
                       else st.order ++ [cid] }
      | _ => st
    | _ => st

/-- `SessionStore._load` over the whole file. -/
def load (lines : List RawLine) (now : Int) : StoreState :=
  lines.foldl (fun st l => loadLine st l now) emptyStore

/-! ## Downstream framing (`_try_parse_json` and the entry loop) -/

/-- `_jsonrpc_error(msg_id, code, message)` (no `data`). -/
def _jsonrpc_error (msg_id : JValue) (code : Int) (message : String) : JValue :=
  .obj [("jsonrpc", .str "2.0"), ("id", msg_id),
        ("error", .obj [("code", .num code), ("message", .str message)])]

/-- `_try_parse_json(line)`: `(msg, err_code, err_msg)`. -/
def _try_parse_json (l : RawLine) : Option Dict × Option Int × Option String :=
  match l with
  | .blank => (none, none, none)
  | .invalid => (none, some JSONRPC_PARSE_ERROR, some "Parse error")
  | .json v =>
    match v with
    | .obj fields => (some fields, none, none)
    | _ => (none, some JSONRPC_INVALID_REQUEST, some "Invalid Request")

/-- What the entry loop (`main`) does with one downstream line. -/
inductive MainStep where
  | emitError (reply : JValue)
  | skip
  | dispatch (msg : Dict)

/-- The per-line branch of `main`: emit a null-id error, skip, or hand
the object to `server.handle` (Python `if not msg` also skips the
empty object). -/
def mainStepFor (l : RawLine) : MainStep :=
  match _try_parse_json l with
  | (_, some code, errMsg) => .emitError (_jsonrpc_error .null code (errMsg.getD "Error"))
  | (some msg, none, _) => if msg.isEmpty then .skip else .dispatch msg
  | (none, none, _) => .skip

/-! ## The `initialize` branch of `CodexBridgeServer.handle` -/

/-- Field access on a JSON object value (`.null` otherwise/absent). -/
def jget (v : JValue) (k : String) : JValue :=
  match v with
  | .obj fields => dget fields k
  | _ => .null

/-- The JSON-RPC id check in `handle`: string, number or null, and
strictly not boolean. -/
def validId : JValue → Bool
  | .str _ => true
  | .num _ => true
  | .null => true
  | _ => false

/-- `params.get("protocolVersion")` when it is a non-empty string
(`requested_version` in `handle`); `params = msg.get("params") or {}`
makes a falsy or non-object `params` contribute nothing. -/
def requestedVersionOf (params : JValue) : Option String :=
  match params with
  | .obj fields =>
    match dget fields "protocolVersion" with
    | .str pv => if pv = "" then none else some pv
    | _ => none
  | _ => none

/-- The `initialize` result object. -/
def initializeResult (params : JValue) : JValue :=
  .obj [("protocolVersion", .str ((requestedVersionOf params).getD MCP_PROTOCOL_VERSION)),
        ("capabilities",
          .obj [("tools", .obj [("listChanged", .bool false)]),
                ("resources", .obj [("subscribe", .bool false), ("listChanged", .bool false)]),
                ("prompts", .obj [("listChanged", .bool false)])]),
        ("serverInfo",
          .obj [("name", .str "codex-bridge"), ("title", .str "Codex Bridge"),
                ("version", .str BRIDGE_VERSION)])]

/-- Outcome of `handle` for the modelled prefix: the id-validation
guard and the `initialize` branch; every later branch of the long
dispatch chain is summarised as `otherDispatch` (no claim in scope
depends on those branches). -/
inductive HandleOut where
  | reply (d : JValue)
  | otherDispatch

/-- Python `x == "s"` for a JSON value. -/
def JValue.eqStr (v : JValue) (s : String) : Bool :=
  match v with
  | .str t => t == s
  | _ => false

/-- Python `x is None`. -/
def JValue.isNull : JValue → Bool
  | .null => true
  | _ => false

/-- The prefix of `CodexBridgeServer.handle`: id validation, then the
`initialize` branch. -/
def handleMsg (msg : Dict) : HandleOut :=
  let msg_id := dget msg "id"
  if dhas msg "id" && !validId msg_id then
    .reply (_jsonrpc_error .null JSONRPC_INVALID_REQUEST
      "Invalid Request: id must be string, number, or null")
  else if (dget msg "method").eqStr "initialize" && !msg_id.isNull then
    .reply (.obj [("jsonrpc", .str "2.0"), ("id", msg_id),
                  ("result", initializeResult (dget msg "params"))])
  else .otherDispatch

/-! ## Argument preparation in `_handle_codex_tool`

`_handle_codex_tool` pops the bridge-specific keys, resolves the
model, injects the reasoning-effort default, rewrites the
`reasoningEffort`/`reasoningSummary` shortcuts into `config`, and
defaults `sandbox`; the resulting dictionary is what reaches the
upstream `codex` call.  `_discover_gpt52_models` is summarised by its
`available` list (the only part the rewriting consumes); the computed
`model_warning` is never used by the handler.  Passing non-string
`model`/`taskType` values through `asOptStrPy` is observationally
faithful: in Python a truthy non-string requested model is not `in`
the (all-string) catalogue and falls back to the default exactly as
`none` does, and only the resolved model reaches the arguments. -/

/-- One `if isinstance(x, str) and x: cfg = dict(args.get("config") if
dict else {}); cfg[key] = x; args["config"] = cfg` paragraph of
`_handle_codex_tool` (the source repeats it verbatim for the two
shortcut keys). -/
def rewriteShortcut (a : Dict) (key : String) (v : JValue) : Dict :=
  match v with
  | .str s =>
    if s = "" then a
    else dset a "config" (.obj (dset ((asPyDict (dget a "config")).getD []) key (.str s)))
  | _ => a

def prepareCodexArgs (args0 : Dict) (available : List String) : Dict :=
  let a1 := dpopRest args0 "timeoutMs"
  let a2 := dpopRest a1 "startupTimeoutMs"
  let reasoning_effort_raw := dget a2 "reasoningEffort"
  let a3 := dpopRest a2 "reasoningEffort"
  let reasoning_summary := dget a3 "reasoningSummary"
  let a4 := dpopRest a3 "reasoningSummary"
  let a5 := dpopRest a4 "name"
  let task_type := dget a5 "taskType"
  let a6 := dpopRest a5 "taskType"
  let requested := dget a6 "model"
  let resolved := (_resolve_model (asOptStrPy requested) (asOptStrPy task_type) available).1
  let a7 := dset a6 "model" (.str resolved)
  let reasoning_effort : JValue :=
    if reasoning_effort_raw.truthy then reasoning_effort_raw
    else .str DEFAULT_REASONING_EFFORT
  let a8 := rewriteShortcut a7 "model_reasoning_effort" reasoning_effort
  let a9 := rewriteShortcut a8 "model_reasoning_summary" reasoning_summary
  if (dget a9 "sandbox").truthy then a9 else dset a9 "sandbox" (.str DEFAULT_SANDBOX)

/-! ## Store operations as a single type (for the monotonicity claim) -/

/-- The mutating `SessionStore` operations. -/
inductive StoreOp where
  | add (info : SessionInfo)
  | update (cid : String) (name : Option String)
  | delete (cid : String)
  | incrementHistory (cid : String)

def applyOp (op : StoreOp) (st : StoreState) : StoreState :=
  match op with
  | .add info => st.add info
  | .update cid name => (st.update cid name).2
  | .delete cid => (st.delete cid).2
  | .incrementHistory cid => (st.increment_history cid).2

/-- `N` successive (successful) `codex-reply` history increments. -/
def incrN (st : StoreState) (cid : String) : Nat → StoreState
  | 0 => st
  | n + 1 => incrN ((st.increment_history cid).2) cid n

/-- Well-formedness of the in-memory store: the insertion order has no
duplicates and indexes exactly the keys of `_by_id`, with each record
stored under its own `conversation_id`.  This invariant holds for the
store states the program builds (established below for `_load` and
preserved by every mutating operation). -/
structure StoreState.WF (st : StoreState) : Prop where
  nodup : st.order.Nodup
  mem_lookup : ∀ cid ∈ st.order,
    ∃ i, slookup st.by_id cid = some i ∧ i.conversation_id = cid
  lookup_mem : ∀ cid, (slookup st.by_id cid).isSome → cid ∈ st.order

/-! # Theorems

## Shared association-list lemmas -/

theorem slookup_sset_self (l : List (String × SessionInfo)) (k : String) (v : SessionInfo) :
    slookup (sset l k v) k = some v := by
  induction l with
  | nil => simp [sset, slookup]
  | cons p rest ih =>
    obtain ⟨k', v'⟩ := p
    by_cases h : k' = k
    · simp [sset, slookup, h]
    · simp [sset, slookup, h, ih]

theorem slookup_sset_ne (l : List (String × SessionInfo)) (k k' : String) (v : SessionInfo)
    (h : k ≠ k') : slookup (sset l k v) k' = slookup l k' := by
  induction l with
  | nil => simp [sset, slookup, h]
  | cons p rest ih =>
    obtain ⟨k₀, v₀⟩ := p
    by_cases h0 : k₀ = k
    · subst h0; simp [sset, slookup, h]
    · simp [sset, slookup, h0, ih]

theorem slookup_filter_self (l : List (String × SessionInfo)) (k : String) :
    slookup (l.filter (fun p => decide (p.1 ≠ k))) k = none := by
  induction l with
  | nil => simp [slookup]
  | cons p rest ih =>
    obtain ⟨k₀, v₀⟩ := p
    simp only [ne_eq, decide_not] at ih ⊢
    by_cases h0 : k₀ = k
    · rw [List.filter_cons_of_neg (by simp [h0])]; exact ih
    · rw [List.filter_cons_of_pos (by simp [h0])]
      simp [slookup, h0, ih]

theorem slookup_filter_ne (l : List (String × SessionInfo)) (k k' : String) (h : k' ≠ k) :
    slookup (l.filter (fun p => decide (p.1 ≠ k))) k' = slookup l k' := by
  induction l with
  | nil => simp
  | cons p rest ih =>
    obtain ⟨k₀, v₀⟩ := p
    simp only [ne_eq, decide_not] at ih ⊢
    by_cases h0 : k₀ = k
    · subst h0
      rw [List.filter_cons_of_neg (by simp)]
      rw [slookup, if_neg (fun hk => h hk.symm)]
      exact ih
    · rw [List.filter_cons_of_pos (by simp [h0])]
      by_cases h1 : k₀ = k'
      · simp [slookup, h1]
      · simp [slookup, h1, ih]

theorem dlookup_dset_self (d : Dict) (k : String) (v : JValue) :
    dlookup (dset d k v) k = some v := by
  induction d with
  | nil => simp [dset, dlookup]
  | cons p rest ih =>
    obtain ⟨k', v'⟩ := p
    by_cases h : k' = k
    · simp [dset, dlookup, h]
    · simp [dset, dlookup, h, ih]

theorem dlookup_dset_ne (d : Dict) (k k' : String) (v : JValue) (h : k ≠ k') :
    dlookup (dset d k v) k' = dlookup d k' := by
  induction d with
  | nil => simp [dset, dlookup, h]
  | cons p rest ih =>
    obtain ⟨k₀, v₀⟩ := p
    by_cases h0 : k₀ = k
    · subst h0; simp [dset, dlookup, h]
    · simp [dset, dlookup, h0, ih]

theorem dlookup_dpopRest_ne (d : Dict) (k k' : String) (h : k' ≠ k) :
    dlookup (dpopRest d k) k' = dlookup d k' := by
  induction d with
  | nil => simp [dpopRest, dlookup]
  | cons p rest ih =>
    obtain ⟨k₀, v₀⟩ := p
    simp only [dpopRest, ne_eq, decide_not] at ih ⊢
    by_cases h0 : k₀ = k
    · subst h0
      rw [List.filter_cons_of_neg (by simp)]
      rw [dlookup, if_neg (fun hk => h hk.symm)]
      exact ih
    · rw [List.filter_cons_of_pos (by simp [h0])]
      by_cases h1 : k₀ = k'
      · simp [dlookup, h1]
      · simp [dlookup, h1, ih]

theorem dlookup_dpopRest_self (d : Dict) (k : String) :
    dlookup (dpopRest d k) k = none := by
  induction d with
  | nil => simp [dpopRest, dlookup]
  | cons p rest ih =>
    obtain ⟨k₀, v₀⟩ := p
    simp only [dpopRest, ne_eq, decide_not] at ih ⊢
    by_cases h0 : k₀ = k
    · subst h0; rw [List.filter_cons_of_neg (by simp)]; exact ih
    · rw [List.filter_cons_of_pos (by simp [h0])]
      simp [dlookup, h0, ih]

theorem dget_dpopRest_ne (d : Dict) (k k' : String) (h : k' ≠ k) :
    dget (dpopRest d k) k' = dget d k' := by
  simp [dget, dlookup_dpopRest_ne _ _ _ h]

theorem dget_dset_self (d : Dict) (k : String) (v : JValue) : dget (dset d k v) k = v := by
  simp [dget, dlookup_dset_self]

theorem dget_dset_ne (d : Dict) (k k' : String) (v : JValue) (h : k ≠ k') :
    dget (dset d k v) k' = dget d k' := by
  simp [dget, dlookup_dset_ne _ _ _ _ h]

/-! ## C1: overall upstream-call timeout derivation -/

/-- C1 (counterexample). The claim says `timeoutMs ≤ 0` yields a
1000 ms timeout and that any other in-range positive value is used as
is.  In the code, `timeoutMs = 0` fails the `timeout_ms > 0` guard and
so falls back to the 600000 ms default, and `timeoutMs = 500` is
clamped up to 1000 ms by `max(1.0, ...)`. -/
theorem c1_counterexample :
    codexOverallTimeoutMs (.num 0) = 600000 ∧ (600000 : Int) ≠ 1000 ∧
    codexOverallTimeoutMs (.num 500) = 1000 ∧ (1000 : Int) ≠ 500 ∧
    codexReplyOverallTimeoutMs (.num 0) = 600000 :=
  ⟨rfl, by decide, rfl, by decide, rfl⟩

/-- C1 (amended). For every codex or codex-reply tool call, the
overall upstream-call timeout derived from `timeoutMs` is: 600000 ms
when `timeoutMs` is absent, not an integer, or ≤ 0; 1000 ms when
0 < `timeoutMs` < 1000; 3600000 ms when `timeoutMs` > 3600000;
otherwise `timeoutMs` itself — identically on both code paths. -/
theorem c1_amended (v : JValue) :
    (asPyInt v = none →
      codexOverallTimeoutMs v = 600000 ∧ codexReplyOverallTimeoutMs v = 600000) ∧
    (∀ n : Int, asPyInt v = some n →
      codexOverallTimeoutMs v =
        (if n ≤ 0 then 600000
         else if n < 1000 then 1000
         else if n ≤ 3600000 then n
         else 3600000) ∧
      codexReplyOverallTimeoutMs v = codexOverallTimeoutMs v) := by
  constructor
  · intro h
    simp [codexOverallTimeoutMs, codexReplyOverallTimeoutMs, h]
  · intro n h
    refine ⟨?_, by simp [codexOverallTimeoutMs, codexReplyOverallTimeoutMs]⟩
    simp only [codexOverallTimeoutMs, h]
    rcases le_or_lt n 0 with h0 | h0
    · rw [if_neg (by omega), if_pos h0]
    · rw [if_pos h0, if_neg (by omega)]
      rcases lt_or_le n 1000 with h1 | h1
      · rw [if_pos h1, max_eq_left (by rw [min_le_iff]; omega)]
      · rw [if_neg (by omega), max_eq_right (by rw [le_min_iff]; omega)]
        rcases le_or_lt n 3600000 with h2 | h2
        · rw [if_pos h2, min_eq_right h2]
        · rw [if_neg (by omega), min_eq_left (by omega)]

/-- C1 (witness). -/
theorem c1_amended_witness :
    codexOverallTimeoutMs (.num 20000) = 20000 ∧
    codexReplyOverallTimeoutMs (.num 20000) = codexOverallTimeoutMs (.num 20000) := by
  have h := (c1_amended (.num 20000)).2 20000 rfl
  exact ⟨h.1.trans (by norm_num), h.2⟩

/-! ## C3 and C10: model resolution -/

/-- The default model `_resolve_model` computes for a task type, in
closed form: the coding default for anything that is not exactly
`discussion` or `research`. -/
theorem resolve_default_eq (task_type : Option String) :
    (lookupStr TASK_MODEL_DEFAULTS
      (match task_type with
       | some t => if t ∈ TASK_TYPES then t else DEFAULT_TASK_TYPE
       | none => DEFAULT_TASK_TYPE)).getD DEFAULT_TASK_TYPE =
    (if task_type = some "discussion" ∨ task_type = some "research"
     then "gpt-5.2" else "gpt-5.2-codex") := by
  match task_type with
  | none => rfl
  | some t =>
    by_cases h1 : t = "discussion"
    · subst h1; rfl
    · by_cases h2 : t = "research"
      · subst h2; rfl
      · by_cases h3 : t = "coding"
        · subst h3; rfl
        · have hmem : t ∉ TASK_TYPES := by
            simp [TASK_TYPES, h1, h2, h3]
          show (lookupStr TASK_MODEL_DEFAULTS
            (if t ∈ TASK_TYPES then t else DEFAULT_TASK_TYPE)).getD DEFAULT_TASK_TYPE = _
          rw [if_neg hmem]
          simp [h1, h2, lookupStr, TASK_MODEL_DEFAULTS, DEFAULT_TASK_TYPE]

/-- C3 (counterexample). With no requested model and a `taskType`
that is not one of the three task types, the claim's reading of the
task default ("gpt-5.2 otherwise", i.e. for every non-`coding`
`taskType`) predicts `gpt-5.2`, but the code falls back to the
`coding` default `gpt-5.2-codex`. -/
theorem c3_counterexample :
    _resolve_model none (some "planning") [] = ("gpt-5.2-codex", none) ∧
    ("gpt-5.2-codex" : String) ≠ "gpt-5.2" :=
  ⟨by decide, by decide⟩

/-- C3 (amended). For every input, model resolution returns: the
effective task default with no warning when no model is requested
(absent or empty), where the effective task default is `gpt-5.2` for
`taskType` `discussion` or `research` and `gpt-5.2-codex` for every
other `taskType` (including `coding`, absent, and invalid values); the
requested model with no warning when it is non-empty and a member of
`availableModels`; otherwise the effective task default together with
a warning string. -/
theorem c3_amended (requested task_type : Option String) (avail : List String) :
    ((requested = none ∨ requested = some "") →
      _resolve_model requested task_type avail =
        ((if task_type = some "discussion" ∨ task_type = some "research"
          then "gpt-5.2" else "gpt-5.2-codex"), none)) ∧
    (∀ m, requested = some m → m ≠ "" → m ∈ avail →
      _resolve_model requested task_type avail = (m, none)) ∧
    (∀ m, requested = some m → m ≠ "" → m ∉ avail →
      ∃ w, _resolve_model requested task_type avail =
        ((if task_type = some "discussion" ∨ task_type = some "research"
          then "gpt-5.2" else "gpt-5.2-codex"), some w)) := by
  refine ⟨?_, ?_, ?_⟩
  · rintro (rfl | rfl)
    · simp only [_resolve_model]
      rw [resolve_default_eq]
    · simp only [_resolve_model, resolve_default_eq]
      simp
  · rintro m rfl hm hmem
    simp only [_resolve_model, if_neg hm, if_pos hmem]
  · rintro m rfl hm hmem
    refine ⟨"Model '" ++ m ++ "' not available. Using '" ++
      (if task_type = some "discussion" ∨ task_type = some "research"
       then "gpt-5.2" else "gpt-5.2-codex") ++ "' instead.", ?_⟩
    simp only [_resolve_model, if_neg hm, if_neg hmem]
    rw [resolve_default_eq]

/-- C3 (witness). -/
theorem c3_amended_witness :
    _resolve_model none (some "discussion") ["o3"] = ("gpt-5.2", none) ∧
    _resolve_model (some "o3") (some "discussion") ["o3"] = ("o3", none) := by
  refine ⟨?_, ?_⟩
  · have h := (c3_amended none (some "discussion") ["o3"]).1 (Or.inl rfl)
    simpa using h
  · exact (c3_amended (some "o3") (some "discussion") ["o3"]).2.1 "o3" rfl
      (by decide) (by decide)

/-- C10. Model resolution is total in `taskType`: every value that
is not one of the three task types (including absent) behaves exactly
as `coding` does, and the resolved model is always either a member of
`availableModels` or one of the two task defaults. -/
theorem c10_resolve_total (requested task_type : Option String) (avail : List String)
    (hbad : ∀ t, task_type = some t → t ∉ TASK_TYPES) :
    _resolve_model requested task_type avail =
      _resolve_model requested (some "coding") avail ∧
    ∀ (r t : Option String) (a : List String),
      (_resolve_model r t a).1 ∈ a ∨
      (_resolve_model r t a).1 ∈ (["gpt-5.2-codex", "gpt-5.2"] : List String) := by
  constructor
  · match task_type with
    | none => rfl
    | some t =>
      have h := hbad t rfl
      simp only [_resolve_model, if_neg h]
      rfl
  · intro r t a
    have hdef : (lookupStr TASK_MODEL_DEFAULTS
        (match t with
         | some t' => if t' ∈ TASK_TYPES then t' else DEFAULT_TASK_TYPE
         | none => DEFAULT_TASK_TYPE)).getD DEFAULT_TASK_TYPE ∈
        (["gpt-5.2-codex", "gpt-5.2"] : List String) := by
      rw [resolve_default_eq]
      split <;> simp
    match r with
    | none => exact Or.inr hdef
    | some m =>
      by_cases hm : m = ""
      · simp only [_resolve_model, if_pos hm]
        exact Or.inr hdef
      · by_cases hmem : m ∈ a
        · simp only [_resolve_model, if_neg hm, if_pos hmem]
          exact Or.inl hmem
        · simp only [_resolve_model, if_neg hm, if_neg hmem]
          exact Or.inr hdef

/-! ## C7: the `initialize` reply -/

theorem isNull_eq_false (v : JValue) (h : v ≠ .null) : v.isNull = false := by
  cases v with
  | null => exact absurd rfl h
  | bool b => rfl
  | num n => rfl
  | str s => rfl
  | arr xs => rfl
  | obj fs => rfl

/-- C7. For every `initialize` request carrying a well-formed
non-null id, the result's `protocolVersion` echoes the client-supplied
version whenever the client supplied a non-empty string (and is
`2025-11-25` otherwise, via `requestedVersionOf`), and
`serverInfo.name` is `codex-bridge`.  (A boolean or otherwise invalid
id is rejected by the id guard before this branch, and a null id makes
the request a notification; the hypotheses restrict to the requests
the claim describes.) -/
theorem c7_initialize (msg : Dict)
    (_hhas : dhas msg "id" = true)
    (hvalid : validId (dget msg "id") = true)
    (hnn : dget msg "id" ≠ .null)
    (hm : dget msg "method" = .str "initialize") :
    ∃ reply, handleMsg msg = .reply reply ∧
      jget (jget reply "result") "protocolVersion" =
        .str ((requestedVersionOf (dget msg "params")).getD "2025-11-25") ∧
      (∀ fields pv, dget msg "params" = .obj fields →
        dget fields "protocolVersion" = .str pv → pv ≠ "" →
        jget (jget reply "result") "protocolVersion" = .str pv) ∧
      jget (jget (jget reply "result") "serverInfo") "name" = .str "codex-bridge" := by
  refine ⟨.obj [("jsonrpc", .str "2.0"), ("id", dget msg "id"),
    ("result", initializeResult (dget msg "params"))], ?_, rfl, ?_, rfl⟩
  · simp only [handleMsg, hvalid, hm, Bool.not_true, Bool.and_false]
    rw [if_neg (by simp)]
    rw [if_pos (by simp [JValue.eqStr, isNull_eq_false _ hnn])]
  · intro fields pv hf hpv hne
    rw [hf]
    show JValue.str ((requestedVersionOf (.obj fields)).getD MCP_PROTOCOL_VERSION) = _
    simp [requestedVersionOf, hpv, hne]

/-- C7 (witness). The spec's own handshake scenario: the client
supplies `2024-11-05` and the reply echoes it. -/
theorem c7_initialize_witness :
    ∃ reply, handleMsg [("id", .num 1), ("method", .str "initialize"),
        ("params", .obj [("protocolVersion", .str "2024-11-05")])] = .reply reply ∧
      jget (jget reply "result") "protocolVersion" = .str "2024-11-05" ∧
      jget (jget (jget reply "result") "serverInfo") "name" = .str "codex-bridge" := by
  obtain ⟨reply, h1, _, h3, h4⟩ := c7_initialize
    [("id", .num 1), ("method", .str "initialize"),
     ("params", .obj [("protocolVersion", .str "2024-11-05")])]
    rfl rfl (fun h => JValue.noConfusion (show JValue.num 1 = .null from h)) rfl
  exact ⟨reply, h1, h3 _ "2024-11-05" rfl rfl (by decide), h4⟩

/-! ## C8: downstream line classification -/

/-- C8. An undecodable line yields a JSON-RPC error reply with
code −32700 and null id; a decodable line that is not an object yields
code −32600 and null id; a whitespace-only line yields no reply. -/
theorem c8_line_classification (v : JValue) (hv : ∀ fields, v ≠ .obj fields) :
    (mainStepFor .invalid =
      .emitError (_jsonrpc_error .null JSONRPC_PARSE_ERROR "Parse error") ∧
     jget (_jsonrpc_error .null JSONRPC_PARSE_ERROR "Parse error") "id" = .null ∧
     jget (jget (_jsonrpc_error .null JSONRPC_PARSE_ERROR "Parse error") "error") "code" =
       .num (-32700)) ∧
    (mainStepFor (.json v) =
      .emitError (_jsonrpc_error .null JSONRPC_INVALID_REQUEST "Invalid Request") ∧
     jget (_jsonrpc_error .null JSONRPC_INVALID_REQUEST "Invalid Request") "id" = .null ∧
     jget (jget (_jsonrpc_error .null JSONRPC_INVALID_REQUEST "Invalid Request") "error")
       "code" = .num (-32600)) ∧
    mainStepFor .blank = .skip := by
  refine ⟨⟨rfl, rfl, rfl⟩, ⟨?_, rfl, rfl⟩, rfl⟩
  cases v with
  | obj fields => exact absurd rfl (hv fields)
  | null => rfl
  | bool b => rfl
  | num n => rfl
  | str s => rfl
  | arr xs => rfl

/-- C8 (witness). -/
theorem c8_line_classification_witness :
    mainStepFor (.json (.num 3)) =
      .emitError (_jsonrpc_error .null JSONRPC_INVALID_REQUEST "Invalid Request") ∧
    mainStepFor .blank = .skip := by
  have h := c8_line_classification (.num 3) (fun _ h => JValue.noConfusion h)
  exact ⟨h.2.1.1, h.2.2⟩

/-! ## C9: default injection and config rewriting in `_handle_codex_tool` -/

theorem rewriteShortcut_dget_ne (a : Dict) (key : String) (v : JValue) (k : String)
    (h : k ≠ "config") : dget (rewriteShortcut a key v) k = dget a k := by
  unfold rewriteShortcut
  split
  · split
    · rfl
    · exact dget_dset_ne _ _ _ _ (fun hk => h hk.symm)
  · rfl

theorem rewriteShortcut_config_self (a : Dict) (key : String) (s : String) (hs : s ≠ "") :
    ∃ cfg, dget (rewriteShortcut a key (.str s)) "config" = .obj cfg ∧
      dget cfg key = .str s := by
  refine ⟨dset ((asPyDict (dget a "config")).getD []) key (.str s), ?_,
    dget_dset_self _ _ _⟩
  simp only [rewriteShortcut]
  rw [if_neg hs]
  exact dget_dset_self _ _ _

theorem rewriteShortcut_preserves_dget (a : Dict) (key : String) (v : JValue)
    (k : String) (val : JValue) (hk : key ≠ k)
    (h : ∃ cfg, dget a "config" = .obj cfg ∧ dget cfg k = val) :
    ∃ cfg, dget (rewriteShortcut a key v) "config" = .obj cfg ∧ dget cfg k = val := by
  obtain ⟨cfg, hc, hv⟩ := h
  unfold rewriteShortcut
  split
  · split
    · exact ⟨cfg, hc, hv⟩
    · refine ⟨dset ((asPyDict (dget a "config")).getD []) key (.str _),
        dget_dset_self _ _ _, ?_⟩
      rw [dget_dset_ne _ _ _ _ hk, hc]
      exact hv
  · exact ⟨cfg, hc, hv⟩

theorem rewriteShortcut_preserves_dlookup (a : Dict) (key : String) (v : JValue)
    (k : String) (val : JValue) (hk : key ≠ k)
    (h : ∃ cfg, dget a "config" = .obj cfg ∧ dlookup cfg k = some val) :
    ∃ cfg, dget (rewriteShortcut a key v) "config" = .obj cfg ∧ dlookup cfg k = some val := by
  obtain ⟨cfg, hc, hv⟩ := h
  unfold rewriteShortcut
  split
  · split
    · exact ⟨cfg, hc, hv⟩
    · refine ⟨dset ((asPyDict (dget a "config")).getD []) key (.str _),
        dget_dset_self _ _ _, ?_⟩
      rw [dlookup_dset_ne _ _ _ _ hk, hc]
      exact hv
  · exact ⟨cfg, hc, hv⟩

/-- Transport a `config` fact through the final sandbox-default step
of `_handle_codex_tool`. -/
theorem final_sandbox_config (a : Dict) (P : Dict → Prop)
    (h : ∃ cfg, dget a "config" = .obj cfg ∧ P cfg) :
    ∃ cfg, dget (if (dget a "sandbox").truthy then a
      else dset a "sandbox" (.str DEFAULT_SANDBOX)) "config" = .obj cfg ∧ P cfg := by
  obtain ⟨cfg, hc, hp⟩ := h
  refine ⟨cfg, ?_, hp⟩
  split
  · exact hc
  · rw [dget_dset_ne _ _ _ _ (by simp)]
    exact hc

/-- The final sandbox-default step on a dictionary whose `sandbox` is
unset. -/
theorem final_sandbox_unset (a : Dict) (h : dget a "sandbox" = JValue.null) :
    dget (if (dget a "sandbox").truthy then a
      else dset a "sandbox" (.str DEFAULT_SANDBOX)) "sandbox" = .str DEFAULT_SANDBOX := by
  rw [h]
  rw [if_neg (by simp [JValue.truthy])]
  exact dget_dset_self _ _ _

/-- C9. For every codex tool call: an unset `sandbox` is set to
`danger-full-access`; an unset `reasoningEffort` defaults to `xhigh`
and is rewritten into the nested `config` object under
`model_reasoning_effort` (creating `config` if absent); a supplied
non-empty string `reasoningSummary` is rewritten under
`model_reasoning_summary`; and every caller-supplied `config` key
other than those two reaches the upstream call unchanged. -/
theorem c9_codex_defaults (args : Dict) (available : List String) :
    (dlookup args "sandbox" = none →
      dget (prepareCodexArgs args available) "sandbox" = .str "danger-full-access") ∧
    (dlookup args "reasoningEffort" = none →
      ∃ cfg, dget (prepareCodexArgs args available) "config" = .obj cfg ∧
        dget cfg "model_reasoning_effort" = .str "xhigh") ∧
    (∀ s, s ≠ "" → dget args "reasoningSummary" = .str s →
      ∃ cfg, dget (prepareCodexArgs args available) "config" = .obj cfg ∧
        dget cfg "model_reasoning_summary" = .str s) ∧
    (∀ cfg0 k v, dget args "config" = .obj cfg0 →
      k ≠ "model_reasoning_effort" → k ≠ "model_reasoning_summary" →
      dlookup cfg0 k = some v →
      ∃ cfg, dget (prepareCodexArgs args available) "config" = .obj cfg ∧
        dlookup cfg k = some v) := by
  simp only [prepareCodexArgs]
  refine ⟨?_, ?_, ?_, ?_⟩
  · -- sandbox default
    intro hs
    have hs0 : dget args "sandbox" = JValue.null := by simp [dget, hs]
    apply final_sandbox_unset
    simp [rewriteShortcut_dget_ne, dget_dset_ne, dget_dpopRest_ne, hs0]
  · -- reasoningEffort default into config
    intro hre
    have hre0 : dget args "reasoningEffort" = JValue.null := by simp [dget, hre]
    apply final_sandbox_config
    simp only [dget_dpopRest_ne _ "startupTimeoutMs" "reasoningEffort" (by simp),
      dget_dpopRest_ne _ "timeoutMs" "reasoningEffort" (by simp), hre0]
    rw [if_neg (by simp [JValue.truthy])]
    apply rewriteShortcut_preserves_dget _ _ _ _ _
      (show ("model_reasoning_summary" : String) ≠ "model_reasoning_effort" by simp)
    exact rewriteShortcut_config_self _ _ _ (by simp [DEFAULT_REASONING_EFFORT])
  · -- reasoningSummary into config
    intro s hs hsum
    apply final_sandbox_config
    simp only [dget_dpopRest_ne _ "reasoningEffort" "reasoningSummary" (by simp),
      dget_dpopRest_ne _ "startupTimeoutMs" "reasoningSummary" (by simp),
      dget_dpopRest_ne _ "timeoutMs" "reasoningSummary" (by simp), hsum]
    exact rewriteShortcut_config_self _ _ _ hs
  · -- caller config keys other than the two shortcuts are preserved
    intro cfg0 k v hcfg hk1 hk2 hv
    apply final_sandbox_config
    apply rewriteShortcut_preserves_dlookup _ _ _ _ _ (fun h => hk2 h.symm)
    apply rewriteShortcut_preserves_dlookup _ _ _ _ _ (fun h => hk1 h.symm)
    refine ⟨cfg0, ?_, hv⟩
    rw [dget_dset_ne _ _ _ _ (by simp)]
    rw [dget_dpopRest_ne _ _ _ (by simp), dget_dpopRest_ne _ _ _ (by simp),
      dget_dpopRest_ne _ _ _ (by simp), dget_dpopRest_ne _ _ _ (by simp),
      dget_dpopRest_ne _ _ _ (by simp), dget_dpopRest_ne _ _ _ (by simp)]
    exact hcfg

/-- C9 (witness). -/
theorem c9_codex_defaults_witness :
    dget (prepareCodexArgs [("prompt", .str "hi"),
      ("config", .obj [("foo", .num 1)])] []) "sandbox" = .str "danger-full-access" ∧
    (∃ cfg, dget (prepareCodexArgs [("prompt", .str "hi"),
        ("config", .obj [("foo", .num 1)])] []) "config" = .obj cfg ∧
      dget cfg "model_reasoning_effort" = .str "xhigh") ∧
    (∃ cfg, dget (prepareCodexArgs [("prompt", .str "hi"),
        ("config", .obj [("foo", .num 1)])] []) "config" = .obj cfg ∧
      dlookup cfg "foo" = some (.num 1)) := by
  have h := c9_codex_defaults [("prompt", .str "hi"), ("config", .obj [("foo", .num 1)])] []
  exact ⟨h.1 rfl, h.2.1 rfl,
    h.2.2.2 [("foo", .num 1)] "foo" (.num 1) rfl (by simp) (by simp) rfl⟩

/-! ## C5: decimal cursor round-trip -/

theorem charDigit?_digitChar (d : Nat) (h : d < 10) :
    charDigit? (digitChar d) = some d := by
  interval_cases d <;> rfl

theorem isPySpace_digitChar (d : Nat) (h : d < 10) : isPySpace (digitChar d) = false := by
  interval_cases d <;> rfl

theorem digitChar_ne_dash (d : Nat) (h : d < 10) : digitChar d ≠ '-' := by
  interval_cases d <;> decide

theorem digitChar_ne_plus (d : Nat) (h : d < 10) : digitChar d ≠ '+' := by
  interval_cases d <;> decide

theorem parseDigitsAux_map (L : List Nat) (h : ∀ d ∈ L, d < 10) : ∀ acc : Nat,
    parseDigitsAux (L.map digitChar) acc =
      some (L.foldl (fun a d => a * 10 + d) acc) := by
  induction L with
  | nil => intro acc; rfl
  | cons d T ih =>
    intro acc
    have hd : d < 10 := h d (by simp)
    simp only [List.map_cons, parseDigitsAux, charDigit?_digitChar d hd, List.foldl_cons]
    exact ih (fun x hx => h x (by simp [hx])) _

theorem foldl_digits_eq (L : List Nat) : ∀ acc : Nat,
    L.reverse.foldl (fun a d => a * 10 + d) acc =
      acc * 10 ^ L.length + Nat.ofDigits 10 L := by
  induction L with
  | nil => intro acc; simp [Nat.ofDigits_nil]
  | cons d T ih =>
    intro acc
    simp only [List.reverse_cons, List.foldl_append, List.foldl_cons, List.foldl_nil, ih,
      Nat.ofDigits_cons, List.length_cons]
    ring

theorem trimChars_eq_self (cs : List Char) (h : ∀ c ∈ cs, isPySpace c = false) :
    trimChars cs = cs := by
  have h1 : cs.dropWhile isPySpace = cs := by
    cases cs with
    | nil => rfl
    | cons c tl => exact List.dropWhile_cons_of_neg (by simp [h c (by simp)])
  rw [trimChars, h1]
  have h2 : cs.reverse.dropWhile isPySpace = cs.reverse := by
    cases hrev : cs.reverse with
    | nil => rfl
    | cons c tl =>
      refine List.dropWhile_cons_of_neg ?_
      have hc : c ∈ cs := by
        have hm : c ∈ cs.reverse := by rw [hrev]; simp
        simpa using hm
      simp [h c hc]
  rw [h2, List.reverse_reverse]

theorem parseDigits_pyStrNat (n : Nat) :
    parseDigits (pyStrNat n).data = some n := by
  by_cases h0 : n = 0
  · subst h0; rfl
  · have hdig : ∀ d ∈ (Nat.digits 10 n).reverse, d < 10 := by
      intro d hd
      exact Nat.digits_lt_base (by norm_num) (List.mem_reverse.mp hd)
    have hne : Nat.digits 10 n ≠ [] := Nat.digits_ne_nil_iff_ne_zero.mpr h0
    have hdata : (pyStrNat n).data = (Nat.digits 10 n).reverse.map digitChar := by
      simp [pyStrNat, h0]
    rw [hdata]
    obtain ⟨d0, ds', hds⟩ : ∃ d0 ds', (Nat.digits 10 n).reverse = d0 :: ds' := by
      cases hrev : (Nat.digits 10 n).reverse with
      | nil =>
        exact absurd (by simpa using congrArg List.reverse hrev) hne
      | cons a tl => exact ⟨a, tl, rfl⟩
    rw [hds, List.map_cons]
    show parseDigitsAux (digitChar d0 :: ds'.map digitChar) 0 = some n
    rw [← List.map_cons, ← hds, parseDigitsAux_map _ hdig 0, foldl_digits_eq]
    simp [Nat.ofDigits_digits]

theorem pyInt?_pyStrNat (n : Nat) : pyInt? (pyStrNat n) = some (n : Int) := by
  by_cases h0 : n = 0
  · subst h0; rfl
  · have hdig : ∀ d ∈ (Nat.digits 10 n).reverse, d < 10 := by
      intro d hd
      exact Nat.digits_lt_base (by norm_num) (List.mem_reverse.mp hd)
    have hne : Nat.digits 10 n ≠ [] := Nat.digits_ne_nil_iff_ne_zero.mpr h0
    have hdata : (pyStrNat n).data = (Nat.digits 10 n).reverse.map digitChar := by
      simp [pyStrNat, h0]
    have hsp : ∀ c ∈ (pyStrNat n).data, isPySpace c = false := by
      rw [hdata]
      intro c hc
      obtain ⟨d, hd, rfl⟩ := List.mem_map.mp hc
      exact isPySpace_digitChar d (hdig d hd)
    obtain ⟨d0, ds', hds⟩ : ∃ d0 ds', (Nat.digits 10 n).reverse = d0 :: ds' := by
      cases hrev : (Nat.digits 10 n).reverse with
      | nil =>
        exact absurd (by simpa using congrArg List.reverse hrev) hne
      | cons a tl => exact ⟨a, tl, rfl⟩
    have hd0 : d0 < 10 := hdig d0 (by rw [hds]; simp)
    have htrim : trimChars (pyStrNat n).data = digitChar d0 :: ds'.map digitChar := by
      rw [trimChars_eq_self _ hsp, hdata, hds, List.map_cons]
    unfold pyInt?
    simp only [htrim]
    rw [if_neg (digitChar_ne_dash d0 hd0), if_neg (digitChar_ne_plus d0 hd0)]
    rw [show digitChar d0 :: ds'.map digitChar = (pyStrNat n).data by
      rw [hdata, hds, List.map_cons]]
    rw [parseDigits_pyStrNat n]
    rfl

theorem cursorStart_pyStrNat (e : Nat) : cursorStart (some (pyStrNat e)) = e := by
  simp [cursorStart, pyInt?_pyStrNat]

theorem cursorStart_none : cursorStart none = 0 := rfl

theorem filterMap_payload_map (st : StoreState) (l : List String)
    (h : ∀ cid ∈ l, ∃ i, slookup st.by_id cid = some i ∧ i.conversation_id = cid) :
    (l.filterMap (fun cid => (slookup st.by_id cid).map _session_info_payload)).map
      (fun p => p.conversationId) = l := by
  induction l with
  | nil => rfl
  | cons c tl ih =>
    obtain ⟨i, hi, hcid⟩ := h c (by simp)
    rw [List.filterMap_cons, hi]
    simp only [Option.map_some', List.map_cons]
    rw [ih (fun x hx => h x (by simp [hx]))]
    simp [_session_info_payload, hcid]

theorem paginateAux_drop (st : StoreState) (hwf : st.WF) (limit : Int) (hl : 1 ≤ limit) :
    ∀ (fuel : Nat) (cursor : Option String) (start : Nat),
      cursorStart cursor = start →
      st.order.length - start ≤ fuel →
      (paginateAux st limit fuel cursor).map (fun p => p.conversationId) =
        st.order.reverse.drop start := by
  intro fuel
  induction fuel with
  | zero =>
    intro cursor start hc hfuel
    have hlen : st.order.reverse.length ≤ start := by
      simp only [List.length_reverse]
      omega
    rw [show paginateAux st limit 0 cursor = [] from rfl, List.drop_eq_nil_of_le hlen]
    rfl
  | succ fuel ih =>
    intro cursor start hc hfuel
    have hhop : 1 ≤ (max 1 limit).toNat := by
      have h1 : (1 : Int) ≤ max 1 limit := le_max_left _ _
      omega
    have hlen : st.order.reverse.length = st.order.length := by simp
    have hmatch : ∀ (o : Option String),
        (match o with
         | none => ([] : List SessionPayload)
         | some c => paginateAux st limit fuel (some c)) =
        (o.map (fun c => paginateAux st limit fuel (some c))).getD [] := by
      intro o; cases o <;> rfl
    simp only [paginateAux, StoreState.listOp, hc, hmatch, List.map_append]
    have hdata : (((st.order.reverse.drop start).take
        (min st.order.reverse.length (start + (max 1 limit).toNat) - start)).filterMap
          (fun cid => (slookup st.by_id cid).map _session_info_payload)).map
        (fun p => p.conversationId) =
        (st.order.reverse.drop start).take
          (min st.order.reverse.length (start + (max 1 limit).toNat) - start) := by
      apply filterMap_payload_map
      intro cid hcid
      have h1 : cid ∈ st.order.reverse :=
        List.drop_subset _ _ ((List.take_subset _ _) hcid)
      exact hwf.mem_lookup cid (List.mem_reverse.mp h1)
    rw [hdata]
    by_cases hlt : min st.order.reverse.length (start + (max 1 limit).toNat)
        < st.order.reverse.length
    · rw [if_pos hlt]
      have hlt' : start + (max 1 limit).toNat < st.order.reverse.length := by
        by_contra hcon
        push_neg at hcon
        rw [Nat.min_eq_left hcon] at hlt
        exact lt_irrefl _ hlt
      have hmin : min st.order.reverse.length (start + (max 1 limit).toNat) =
          start + (max 1 limit).toNat := Nat.min_eq_right (Nat.le_of_lt hlt')
      rw [hmin]
      simp only [Option.map_some', Option.getD_some]
      rw [ih (some (pyStrNat (start + (max 1 limit).toNat)))
        (start + (max 1 limit).toNat) (cursorStart_pyStrNat _) (by omega)]
      have hsum : start + (start + (max 1 limit).toNat - start) =
          start + (max 1 limit).toNat := by omega
      calc (st.order.reverse.drop start).take (start + (max 1 limit).toNat - start) ++
            st.order.reverse.drop (start + (max 1 limit).toNat)
          = (st.order.reverse.drop start).take (start + (max 1 limit).toNat - start) ++
            (st.order.reverse.drop start).drop (start + (max 1 limit).toNat - start) := by
            rw [List.drop_drop, hsum]
        _ = st.order.reverse.drop start := List.take_append_drop _ _
    · rw [if_neg hlt]
      simp only [Option.map_none', Option.getD_none, List.map_nil, List.append_nil]
      have hmin : min st.order.reverse.length (start + (max 1 limit).toNat) =
          st.order.reverse.length :=
        Nat.le_antisymm (Nat.min_le_left _ _) (Nat.le_of_not_lt hlt)
      rw [hmin]
      apply List.take_of_length_le
      simp

/-- C5. Paginating `list(limit, cursor)` from an absent cursor and
feeding each returned `nextCursor` back in until it is null yields
every stored conversation id exactly once, in strict reverse-insertion
order.  `fuel` bounds the number of rounds; any bound at least the
store size is enough, since each round advances the cursor. -/
theorem c5_pagination (st : StoreState) (hwf : st.WF) (limit : Int) (hl : 1 ≤ limit)
    (fuel : Nat) (hf : st.order.length ≤ fuel) :
    (paginate st limit fuel).map (fun p => p.conversationId) = st.order.reverse ∧
    ((paginate st limit fuel).map (fun p => p.conversationId)).Nodup ∧
    (∀ cid, (st.get cid).isSome ↔
      cid ∈ (paginate st limit fuel).map (fun p => p.conversationId)) := by
  have hmain0 := paginateAux_drop st hwf limit hl fuel none 0 rfl (by omega)
  rw [List.drop_zero] at hmain0
  have hmain : (paginate st limit fuel).map (fun p => p.conversationId) =
      st.order.reverse := hmain0
  refine ⟨hmain, ?_, ?_⟩
  · rw [hmain]
    exact List.nodup_reverse.mpr hwf.nodup
  · intro cid
    rw [hmain, List.mem_reverse]
    constructor
    · exact hwf.lookup_mem cid
    · intro hmem
      obtain ⟨i, hi, _⟩ := hwf.mem_lookup cid hmem
      simp [StoreState.get, hi]

/-! ## Well-formedness of the stores the program builds -/

theorem emptyStore_WF : emptyStore.WF := by
  refine ⟨List.nodup_nil, ?_, ?_⟩
  · intro cid h
    simp [emptyStore] at h
  · intro cid h
    simp [emptyStore, slookup] at h

theorem sset_existing_WF (st : StoreState) (hwf : st.WF) (cid : String)
    (updated : SessionInfo) (hpres : (slookup st.by_id cid).isSome)
    (hid : updated.conversation_id = cid) :
    (StoreState.mk (sset st.by_id cid updated) st.order).WF := by
  refine ⟨hwf.nodup, ?_, ?_⟩
  · intro c hm
    by_cases he : cid = c
    · subst he
      exact ⟨updated, slookup_sset_self _ _ _, hid⟩
    · obtain ⟨i, hi, hci⟩ := hwf.mem_lookup c hm
      exact ⟨i, by rw [slookup_sset_ne _ _ _ _ he]; exact hi, hci⟩
  · intro c hs
    by_cases he : cid = c
    · subst he
      exact hwf.lookup_mem cid hpres
    · rw [slookup_sset_ne _ _ _ _ he] at hs
      exact hwf.lookup_mem c hs

theorem sset_fresh_WF (st : StoreState) (hwf : st.WF) (cid : String)
    (info : SessionInfo) (hpres : ¬ (slookup st.by_id cid).isSome)
    (hid : info.conversation_id = cid) :
    (StoreState.mk (sset st.by_id cid info) (st.order ++ [cid])).WF := by
  have hnotmem : cid ∉ st.order := by
    intro hmem
    obtain ⟨i, hi, _⟩ := hwf.mem_lookup cid hmem
    exact hpres (by simp [hi])
  refine ⟨?_, ?_, ?_⟩
  · rw [List.nodup_append]
    exact ⟨hwf.nodup, List.nodup_singleton _, by simpa using hnotmem⟩
  · intro c hm
    rcases List.mem_append.mp hm with h1 | h1
    · have hne : cid ≠ c := fun he => hnotmem (he ▸ h1)
      obtain ⟨i, hi, hci⟩ := hwf.mem_lookup c h1
      exact ⟨i, by rw [slookup_sset_ne _ _ _ _ hne]; exact hi, hci⟩
    · simp only [List.mem_singleton] at h1
      subst h1
      exact ⟨info, slookup_sset_self _ _ _, hid⟩
  · intro c hs
    by_cases he : cid = c
    · subst he
      simp
    · rw [slookup_sset_ne _ _ _ _ he] at hs
      exact List.mem_append.mpr (Or.inl (hwf.lookup_mem c hs))

theorem add_WF (st : StoreState) (hwf : st.WF) (r : SessionInfo) : (st.add r).WF := by
  unfold StoreState.add
  split
  · exact hwf
  · exact sset_fresh_WF st hwf r.conversation_id r (by assumption) rfl

theorem update_WF (st : StoreState) (hwf : st.WF) (cid : String) (name : Option String) :
    ((st.update cid name).2).WF := by
  unfold StoreState.update
  split
  · exact hwf
  next existing hEx =>
    split
    · have hpres : (slookup st.by_id cid).isSome := by simp [hEx]
      have hc : existing.conversation_id = cid := by
        obtain ⟨i, hi, hci⟩ := hwf.mem_lookup cid (hwf.lookup_mem cid hpres)
        rw [hEx] at hi
        cases hi
        exact hci
      exact sset_existing_WF st hwf cid _ hpres (by simp [SessionInfo.with_name, hc])
    · exact hwf

theorem increment_WF (st : StoreState) (hwf : st.WF) (cid : String) :
    ((st.increment_history cid).2).WF := by
  unfold StoreState.increment_history
  split
  · exact hwf
  next existing hEx =>
    have hpres : (slookup st.by_id cid).isSome := by simp [hEx]
    have hc : existing.conversation_id = cid := by
      obtain ⟨i, hi, hci⟩ := hwf.mem_lookup cid (hwf.lookup_mem cid hpres)
      rw [hEx] at hi
      cases hi
      exact hci
    exact sset_existing_WF st hwf cid _ hpres
      (by simp [SessionInfo.with_incremented_history, hc])

theorem delete_WF (st : StoreState) (hwf : st.WF) (cid : String) :
    ((st.delete cid).2).WF := by
  unfold StoreState.delete
  split
  · refine ⟨hwf.nodup.filter _, ?_, ?_⟩
    · intro c hm
      rw [List.mem_filter] at hm
      obtain ⟨hmo, hdec⟩ := hm
      have hne : c ≠ cid := by simpa using hdec
      obtain ⟨i, hi, hci⟩ := hwf.mem_lookup c hmo
      exact ⟨i, by rw [slookup_filter_ne _ _ _ hne]; exact hi, hci⟩
    · intro c hs
      by_cases he : c = cid
      · subst he
        rw [slookup_filter_self] at hs
        simp at hs
      · rw [slookup_filter_ne _ _ _ he] at hs
        rw [List.mem_filter]
        exact ⟨hwf.lookup_mem c hs, by simpa using he⟩
  · exact hwf

theorem loadLine_WF (st : StoreState) (hwf : st.WF) (l : RawLine) (now : Int) :
    (loadLine st l now).WF := by
  cases l with
  | blank => exact hwf
  | invalid => exact hwf
  | json v =>
    cases v with
    | obj fields =>
      simp only [loadLine]
      split
      next c _ =>
        split
        next => exact hwf
        next =>
          split
          next => exact hwf
          next info hp =>
            have hic : info.conversation_id = c := by
              simp only [parseSessionFields] at hp
              split at hp
              · exact absurd hp (by simp)
              · cases hp
                rfl
            by_cases hpres : (slookup st.by_id c).isSome
            · rw [if_pos hpres]
              exact sset_existing_WF st hwf c info hpres hic
            · rw [if_neg hpres]
              exact sset_fresh_WF st hwf c info hpres hic
      next => exact hwf
    | null => exact hwf
    | bool b => exact hwf
    | num n => exact hwf
    | str s => exact hwf
    | arr xs => exact hwf

theorem load_WF (lines : List RawLine) (now : Int) : (load lines now).WF := by
  suffices h : ∀ st : StoreState, st.WF →
      ((lines.foldl (fun st l => loadLine st l now) st)).WF from
    h emptyStore emptyStore_WF
  induction lines with
  | nil => exact fun st h => h
  | cons l rest ih =>
    intro st h
    exact ih _ (loadLine_WF st h l now)

/-- C5 (witness). A two-record store paginated with limit 1. -/
theorem c5_pagination_witness :
    (paginate ((emptyStore.add { conversation_id := "a", captured_at := 1 }).add
        { conversation_id := "b", captured_at := 2 }) 1 5).map
      (fun p => p.conversationId) = ["b", "a"] ∧
    ((paginate ((emptyStore.add { conversation_id := "a", captured_at := 1 }).add
        { conversation_id := "b", captured_at := 2 }) 1 5).map
      (fun p => p.conversationId)).Nodup := by
  have h := c5_pagination
    ((emptyStore.add { conversation_id := "a", captured_at := 1 }).add
      { conversation_id := "b", captured_at := 2 })
    (add_WF _ (add_WF _ emptyStore_WF _) _) 1 (by norm_num) 5 (by decide)
  exact ⟨h.1.trans rfl, h.2.1⟩

/-! ## C2: loading persisted lines -/

theorem loadLine_preserves_isSome (st : StoreState) (l : RawLine) (now : Int) (cid : String)
    (h : (st.get cid).isSome) : ((loadLine st l now).get cid).isSome := by
  cases l with
  | blank => exact h
  | invalid => exact h
  | json v =>
    cases v with
    | obj fields =>
      simp only [loadLine]
      split
      next c _ =>
        split
        next => exact h
        next =>
          split
          next => exact h
          next info _ =>
            simp only [StoreState.get] at h ⊢
            by_cases heq2 : c = cid
            · subst heq2
              simp [slookup_sset_self]
            · rw [slookup_sset_ne _ _ _ _ heq2]
              exact h
      next => exact h
    | null => exact h
    | bool b => exact h
    | num n => exact h
    | str s => exact h
    | arr xs => exact h

theorem load_foldl_preserves (post : List RawLine) (now : Int) (cid : String) :
    ∀ st : StoreState, (st.get cid).isSome →
      ((post.foldl (fun st l => loadLine st l now) st).get cid).isSome := by
  induction post with
  | nil => exact fun st h => h
  | cons l rest ih =>
    intro st h
    exact ih _ (loadLine_preserves_isSome st l now cid h)

theorem loadLine_stores (st : StoreState) (fields : Dict) (cid : String) (now : Int)
    (hcid : dget fields "conversation_id" = .str cid) (hne : cid ≠ "")
    (info : SessionInfo) (hp : parseSessionFields fields cid now = some info) :
    (loadLine st (.json (.obj fields)) now).get cid = some info := by
  simp only [loadLine, hcid, if_neg hne, hp, StoreState.get]
  exact slookup_sset_self _ _ _

theorem parseSessionFields_eq (fields : Dict) (cid : String) (now : Int)
    (hcap : (capturedAtCoerce (dget fields "captured_at") now).isSome) :
    ∃ cap, parseSessionFields fields cid now = some
      { conversation_id := cid
        captured_at := cap
        model := asPyStr (dget fields "model")
        model_provider_id := asPyStr (dget fields "model_provider_id")
        approval_policy := asPyStr (dget fields "approval_policy")
        sandbox_policy := asPyDict (dget fields "sandbox_policy")
        cwd := asPyStr (dget fields "cwd")
        reasoning_effort := asPyStr (dget fields "reasoning_effort")
        rollout_path := asPyStr (dget fields "rollout_path")
        history_log_id := asPyInt (dget fields "history_log_id")
        history_entry_count := asPyInt (dget fields "history_entry_count")
        name := asPyStr (dget fields "name") } := by
  obtain ⟨cap, hcap'⟩ := Option.isSome_iff_exists.mp hcap
  exact ⟨cap, by simp only [parseSessionFields, hcap']⟩

/-- C2 (counterexample). This line is a valid JSON object with a
non-empty string `conversation_id`, but its `captured_at` is a truthy
list, so `float(...)` raises and `_load` skips the whole record
instead of coercing the mismatched field: no record is kept for the
id, contradicting the claim. -/
theorem c2_counterexample :
    (load [RawLine.json (.obj [("conversation_id", .str "s1"),
        ("captured_at", .arr [.null])])] 0).get "s1" = none := rfl

/-- C2 (amended). For every line of the persisted `sessions.jsonl`
that is a valid JSON object with a non-empty string `conversation_id`
and whose `captured_at` value is float-coercible (absent and falsy
values fall back to the load time; numbers, booleans and numeric
strings coerce), loading keeps a record for that id without failing
the load, and every type-mismatched optional field of that line is
coerced to null (each stored field is exactly the `isinstance`-guarded
view of the raw value, which is `none` on a type mismatch).  A line
whose `captured_at` is truthy but not float-coercible (a list, an
object, or a non-numeric string) is skipped instead. -/
theorem c2_amended (pre post : List RawLine) (fields : Dict) (cid : String) (now : Int)
    (hcid : dget fields "conversation_id" = .str cid) (hne : cid ≠ "")
    (hcap : (capturedAtCoerce (dget fields "captured_at") now).isSome) :
    ((load (pre ++ .json (.obj fields) :: post) now).get cid).isSome ∧
    ∀ st : StoreState, ∃ info,
      (loadLine st (.json (.obj fields)) now).get cid = some info ∧
      info.model = asPyStr (dget fields "model") ∧
      info.model_provider_id = asPyStr (dget fields "model_provider_id") ∧
      info.approval_policy = asPyStr (dget fields "approval_policy") ∧
      info.sandbox_policy = asPyDict (dget fields "sandbox_policy") ∧
      info.cwd = asPyStr (dget fields "cwd") ∧
      info.reasoning_effort = asPyStr (dget fields "reasoning_effort") ∧
      info.rollout_path = asPyStr (dget fields "rollout_path") ∧
      info.history_log_id = asPyInt (dget fields "history_log_id") ∧
      info.history_entry_count = asPyInt (dget fields "history_entry_count") ∧
      info.name = asPyStr (dget fields "name") := by
  obtain ⟨cap, hinfo⟩ := parseSessionFields_eq fields cid now hcap
  constructor
  · show (((pre ++ RawLine.json (.obj fields) :: post).foldl
      (fun st l => loadLine st l now) emptyStore).get cid).isSome
    rw [List.foldl_append, List.foldl_cons]
    apply load_foldl_preserves
    rw [loadLine_stores _ fields cid now hcid hne _ hinfo]
    rfl
  · intro st
    exact ⟨_, loadLine_stores st fields cid now hcid hne _ hinfo,
      rfl, rfl, rfl, rfl, rfl, rfl, rfl, rfl, rfl, rfl⟩

/-- C2 (witness). A line whose `model` is a number (a type
mismatch) is kept and its `model` field is coerced to null. -/
theorem c2_amended_witness :
    ((load [RawLine.json (.obj [("conversation_id", .str "w3"), ("model", .num 7)])] 5).get
      "w3").isSome ∧
    ∃ info, (loadLine emptyStore
        (.json (.obj [("conversation_id", .str "w3"), ("model", .num 7)])) 5).get "w3" =
      some info ∧ info.model = none := by
  have h := c2_amended [] [] [("conversation_id", .str "w3"), ("model", .num 7)] "w3" 5
    rfl (by decide) (by rfl)
  obtain ⟨info, h1, h2, _⟩ := h.2 emptyStore
  exact ⟨h.1, info, h1, h2.trans rfl⟩

/-! ## C4: `add` is first-write-wins -/

theorem add_get_fresh (st : StoreState) (r : SessionInfo)
    (h : st.get r.conversation_id = none) :
    (st.add r).get r.conversation_id = some r := by
  simp only [StoreState.get] at h
  simp only [StoreState.add, StoreState.get]
  rw [if_neg (by simp [h])]
  exact slookup_sset_self _ _ _

theorem add_get_isSome (st : StoreState) (r : SessionInfo) :
    ((st.add r).get r.conversation_id).isSome := by
  simp only [StoreState.add, StoreState.get]
  by_cases h : (slookup st.by_id r.conversation_id).isSome
  · rw [if_pos h]; exact h
  · rw [if_neg h]
    simp [slookup_sset_self]

/-- C4. Adding `r1` and then any `r2` with the same
`conversation_id` is the same as adding `r1` alone — the second `add`
is a no-op, so it changes neither the stored value nor the insertion
order; and when `r1` was the first write for that id, the stored value
is `r1` and the id was appended once to the order. -/
theorem c4_add_first_write_wins (st : StoreState) (r1 r2 : SessionInfo)
    (hid : r2.conversation_id = r1.conversation_id) :
    ((st.add r1).add r2 = st.add r1) ∧
    (st.get r1.conversation_id = none →
      ((st.add r1).add r2).get r1.conversation_id = some r1 ∧
      ((st.add r1).add r2).order = st.order ++ [r1.conversation_id]) := by
  have hsome := add_get_isSome st r1
  simp only [StoreState.get] at hsome
  have hnoop : (st.add r1).add r2 = st.add r1 := by
    show (if (slookup (st.add r1).by_id r2.conversation_id).isSome then _ else _) = _
    rw [hid, if_pos hsome]
  refine ⟨hnoop, fun hfresh => ⟨?_, ?_⟩⟩
  · rw [hnoop]
    exact add_get_fresh st r1 hfresh
  · rw [hnoop]
    show (StoreState.add st r1).order = _
    simp only [StoreState.get] at hfresh
    simp only [StoreState.add]
    rw [if_neg (by simp [hfresh])]

/-- C4 (witness). -/
theorem c4_add_first_write_wins_witness :
    ((emptyStore.add { conversation_id := "w", captured_at := 1 }).add
        { conversation_id := "w", captured_at := 2 } =
      emptyStore.add { conversation_id := "w", captured_at := 1 }) ∧
    (((emptyStore.add { conversation_id := "w", captured_at := 1 }).add
        { conversation_id := "w", captured_at := 2 }).get "w" =
      some { conversation_id := "w", captured_at := 1 }) := by
  have h := c4_add_first_write_wins emptyStore
    { conversation_id := "w", captured_at := 1 }
    { conversation_id := "w", captured_at := 2 } rfl
  exact ⟨h.1, (h.2 rfl).1⟩

/-! ## C6: history count arithmetic and monotonicity -/

theorem get_increment_self (st : StoreState) (cid : String) (j : SessionInfo)
    (h : st.get cid = some j) :
    ((st.increment_history cid).2).get cid = some j.with_incremented_history := by
  simp only [StoreState.get] at h
  simp only [StoreState.increment_history, StoreState.get, h]
  exact slookup_sset_self _ _ _

theorem incrN_history (cid : String) : ∀ (N : Nat) (st : StoreState) (j : SessionInfo),
    st.get cid = some j →
    ∃ j', (incrN st cid (N + 1)).get cid = some j' ∧
      j'.history_entry_count = some (j.history_entry_count.getD 0 + ((N : Int) + 1)) := by
  intro N
  induction N with
  | zero =>
    intro st j h
    refine ⟨j.with_incremented_history, ?_, ?_⟩
    · exact get_increment_self st cid j h
    · simp [SessionInfo.with_incremented_history]
  | succ n ih =>
    intro st j h
    have h1 := get_increment_self st cid j h
    obtain ⟨j', hj', hh⟩ := ih ((st.increment_history cid).2) j.with_incremented_history h1
    refine ⟨j', hj', ?_⟩
    rw [hh]
    simp only [SessionInfo.with_incremented_history, Option.getD_some]
    congr 1
    push_cast
    ring

/-- C6. After `N ≥ 1` successful `codex-reply` history increments
on an id present in the store, the stored `historyEntryCount` equals
the starting value plus `N` (an absent starting count counts as 0,
exactly as `history_entry_count or 0` does); and no store operation
ever decreases the `historyEntryCount` of a record that survives it. -/
theorem c6_history_count (st : StoreState) (cid : String) (i : SessionInfo) (N : Nat)
    (hget : st.get cid = some i) (hN : 1 ≤ N) :
    (∃ i', (incrN st cid N).get cid = some i' ∧
      i'.history_entry_count = some (i.history_entry_count.getD 0 + (N : Int))) ∧
    (∀ (st' : StoreState) (op : StoreOp) (cid' : String) (j j' : SessionInfo),
      st'.get cid' = some j → ((applyOp op st').get cid' = some j') →
      j.history_entry_count.getD 0 ≤ j'.history_entry_count.getD 0) := by
  constructor
  · obtain ⟨M, rfl⟩ : ∃ M, N = M + 1 := ⟨N - 1, by omega⟩
    obtain ⟨j', h1, h2⟩ := incrN_history cid M st i hget
    refine ⟨j', h1, ?_⟩
    rw [h2, Nat.cast_add, Nat.cast_one]
  · intro st' op cid' j j' hj hj'
    simp only [StoreState.get] at hj
    cases op with
    | add info =>
      simp only [applyOp, StoreState.add] at hj'
      by_cases hpres : (slookup st'.by_id info.conversation_id).isSome
      · rw [if_pos hpres] at hj'
        simp only [StoreState.get, hj] at hj'
        cases hj'
        exact le_refl _
      · rw [if_neg hpres] at hj'
        simp only [StoreState.get] at hj'
        by_cases heq : info.conversation_id = cid'
        · rw [heq] at hpres
          exact absurd (by simp [hj]) hpres
        · rw [slookup_sset_ne _ _ _ _ heq, hj] at hj'
          cases hj'
          exact le_refl _
    | update c name =>
      simp only [applyOp, StoreState.update] at hj'
      cases hEx : slookup st'.by_id c with
      | none =>
        rw [hEx] at hj'
        simp only [StoreState.get, hj] at hj'
        cases hj'
        exact le_refl _
      | some ex =>
        rw [hEx] at hj'
        cases name with
        | none =>
          simp only [StoreState.get, hj] at hj'
          cases hj'
          exact le_refl _
        | some n =>
          simp only [StoreState.get] at hj'
          by_cases heq : c = cid'
          · subst heq
            rw [slookup_sset_self] at hj'
            rw [hEx] at hj
            cases hj
            cases hj'
            simp [SessionInfo.with_name]
          · rw [slookup_sset_ne _ _ _ _ heq, hj] at hj'
            cases hj'
            exact le_refl _
    | delete c =>
      simp only [applyOp, StoreState.delete] at hj'
      by_cases hpres : (slookup st'.by_id c).isSome
      · rw [if_pos hpres] at hj'
        simp only [StoreState.get] at hj'
        by_cases heq : cid' = c
        · subst heq
          rw [slookup_filter_self] at hj'
          cases hj'
        · rw [slookup_filter_ne _ _ _ heq, hj] at hj'
          cases hj'
          exact le_refl _
      · rw [if_neg hpres] at hj'
        simp only [StoreState.get, hj] at hj'
        cases hj'
        exact le_refl _
    | incrementHistory c =>
      simp only [applyOp, StoreState.increment_history] at hj'
      cases hEx : slookup st'.by_id c with
      | none =>
        rw [hEx] at hj'
        simp only [StoreState.get, hj] at hj'
        cases hj'
        exact le_refl _
      | some ex =>
        rw [hEx] at hj'
        simp only [StoreState.get] at hj'
        by_cases heq : c = cid'
        · subst heq
          rw [slookup_sset_self] at hj'
          rw [hEx] at hj
          cases hj
          cases hj'
          simp [SessionInfo.with_incremented_history]
        · rw [slookup_sset_ne _ _ _ _ heq, hj] at hj'
          cases hj'
          exact le_refl _

/-- C6 (witness). -/
theorem c6_history_count_witness :
    ∃ i', (incrN (emptyStore.add { conversation_id := "w", captured_at := 0 }) "w" 2).get "w"
        = some i' ∧
      i'.history_entry_count = some 2 := by
  have h := (c6_history_count (emptyStore.add { conversation_id := "w", captured_at := 0 })
    "w" { conversation_id := "w", captured_at := 0 } 2 rfl (by norm_num)).1
  simpa using h

/-- C10 (witness). -/
theorem c10_resolve_total_witness :
    _resolve_model (some "o3") (some "planning") ["o3"] =
      _resolve_model (some "o3") (some "coding") ["o3"] ∧
    ((_resolve_model (some "o3") (some "planning") ["o3"]).1 ∈ (["o3"] : List String) ∨
      (_resolve_model (some "o3") (some "planning") ["o3"]).1 ∈
        (["gpt-5.2-codex", "gpt-5.2"] : List String)) := by
  have h := c10_resolve_total (some "o3") (some "planning") ["o3"]
    (fun t ht => by cases ht; decide)
  exact ⟨h.1, h.2 (some "o3") (some "planning") ["o3"]⟩

end CodexBridge
